import Mathlib

/-
  Verification development for the fuel-vm core subsystems:
  checked memory ranges, the layered SubStorage, the executable-transaction
  output maintenance, the binary Merkle verifier, stack reservation and the
  ecrecover opcode.  Rust machine integers (u64 Words and 64-bit usize) are
  embedded as Nat with explicit wrap-around modulo 2^64 where the source
  performs overflowing arithmetic, and checked arithmetic is embedded as
  Option/Except valued functions.
-/

deriving instance DecidableEq for Except

namespace FuelVM

/-- 2^64, the modulus of 64-bit Words and (on the targeted platforms) usize. -/
def WORD_MOD : Nat := 18446744073709551616

/-- VM memory capacity.  Modelled from the spec: `VM_MAX_RAM` lives in
fuel-vm/src/consts.rs which is not among the provided sources; the spec fixes
CAPACITY = 2^26 in its concrete scenarios. -/
def VM_MAX_RAM : Nat := 67108864

/-- Rust `usize::overflowing_add` on 64-bit: wrapped sum plus overflow flag. -/
def overflowing_add (a b : Nat) : Nat × Bool :=
  ((a + b) % WORD_MOD, decide (WORD_MOD ≤ a + b))

/-- Rust `usize::saturating_sub`: Nat subtraction already saturates at zero. -/
def saturating_sub (a b : Nat) : Nat := a - b

/-- Rust `usize::saturating_add` on 64-bit, saturating at usize::MAX. -/
def saturating_add (a b : Nat) : Nat := min (a + b) (WORD_MOD - 1)

/-- Rust `u64::checked_add` (also usize on 64-bit). -/
def checked_add_u64 (a b : Nat) : Option Nat :=
  if a + b < WORD_MOD then some (a + b) else none

/-- Rust `u64::checked_sub`. -/
def checked_sub_u64 (a b : Nat) : Option Nat :=
  if b ≤ a then some (a - b) else none

/-- Rust `u64::checked_mul`. -/
def checked_mul_u64 (a b : Nat) : Option Nat :=
  if a * b < WORD_MOD then some (a * b) else none

/-- Rust `u64::checked_div`: fails only on division by zero. -/
def checked_div_u64 (a b : Nat) : Option Nat :=
  if b = 0 then none else some (a / b)

/-- Recoverable panic reasons used by the core (fuel-asm `PanicReason`). -/
inductive PanicReason where
  | MemoryOverflow
  | ArithmeticOverflow
  | ErrorFlag
  | ExpectedInternalContext
  | ExpectedOutputVariable
  | OutputNotFound
  | NotEnoughBalance
  | TransactionValidity
  | NonZeroMessageOutputRecipient
deriving DecidableEq

/-- Non-recoverable bug variants relevant to the core. -/
inductive BugVariant where
  | InvalidMemoryConstraint
deriving DecidableEq

/-- Runtime errors: recoverable panics or bugs (fuel-vm error.rs). -/
inductive RuntimeError where
  | panic (reason : PanicReason)
  | bug (variant : BugVariant)
deriving DecidableEq

/-- A half-open `Range<Word>` constraint, as in `core::ops::Range` over u64. -/
structure WordRange where
  start : Nat
  stop : Nat
deriving DecidableEq

/-- Rust `Range::contains` for a half-open range. -/
def WordRange.containsW (r : WordRange) (x : Nat) : Prop :=
  r.start ≤ x ∧ x < r.stop

instance (r : WordRange) (x : Nat) : Decidable (r.containsW x) := by
  unfold WordRange.containsW; infer_instance

/-- A range of memory checked to fit the VM memory
(fuel-vm/src/constraints.rs `CheckedMemRange`). -/
structure CheckedMemRange where
  start : Nat
  stop : Nat
deriving DecidableEq

/-- The default construction constraint `0..VM_MAX_RAM`. -/
def CheckedMemRange.DEFAULT_CONSTRAINT : WordRange := ⟨0, VM_MAX_RAM⟩

/-- `CheckedMemRange::new_inner`: computes `end` with `overflowing_add` and
rejects (recoverable MemoryOverflow) on overflow, a start outside the
constraint, or — when the size is nonzero — an `end - 1` outside the
constraint. -/
def CheckedMemRange.new_inner (address size : Nat) (constraint : WordRange) :
    Except RuntimeError CheckedMemRange :=
  let p := overflowing_add address size
  let stop := p.1
  let of := p.2
  if of = true ∨ ¬ constraint.containsW address ∨
      (size ≠ 0 ∧ ¬ constraint.containsW (stop - 1)) then
    .error (.panic .MemoryOverflow)
  else
    .ok ⟨address, stop⟩

/-- `CheckedMemRange::new`: the default constraint `0..VM_MAX_RAM`. -/
def CheckedMemRange.new (address size : Nat) : Except RuntimeError CheckedMemRange :=
  CheckedMemRange.new_inner address size CheckedMemRange.DEFAULT_CONSTRAINT

/-- `CheckedMemRange::new_with_constraint`: reports a Bug when the constraint
end exceeds `VM_MAX_RAM`, otherwise defers to `new_inner`. -/
def CheckedMemRange.new_with_constraint (address size : Nat) (constraint : WordRange) :
    Except RuntimeError CheckedMemRange :=
  if VM_MAX_RAM < constraint.stop then
    .error (.bug .InvalidMemoryConstraint)
  else
    CheckedMemRange.new_inner address size constraint

/-- `CheckedMemRange::len` (Rust `Range<usize>::len`, zero when inverted). -/
def CheckedMemRange.len (r : CheckedMemRange) : Nat := r.stop - r.start

/-- `CheckedMemRange::shrink_end`: saturating subtraction on the end. -/
def CheckedMemRange.shrink_end (r : CheckedMemRange) (by_ : Nat) : CheckedMemRange :=
  ⟨r.start, saturating_sub r.stop by_⟩

/-- `CheckedMemRange::grow_start`: saturating addition on the start. -/
def CheckedMemRange.grow_start (r : CheckedMemRange) (by_ : Nat) : CheckedMemRange :=
  ⟨saturating_add r.start by_, r.stop⟩

/-- C1 counterexample: the claim asserts success for every `(a, s)` with
`a + s ≤ CAPACITY`, but `new(CAPACITY, 0)` satisfies that bound and still
fails with the recoverable MemoryOverflow, because the start address
`CAPACITY` falls outside the default constraint `[0, CAPACITY)`. -/
theorem C1_counterexample :
    VM_MAX_RAM + 0 ≤ VM_MAX_RAM ∧
    CheckedMemRange.new VM_MAX_RAM 0 = .error (.panic .MemoryOverflow) := by
  constructor
  · exact Nat.le_of_eq (Nat.add_zero VM_MAX_RAM)
  · decide

/-- C1 (amended): with the default constraint `[0, CAPACITY)`,
`CheckedMemRange::new(a, s)` succeeds and yields the half-open range
`[a, a+s)` exactly when `a < CAPACITY` and `a + s ≤ CAPACITY`; in every other
case (including overflow of `a + s`) it fails with the recoverable panic
MemoryOverflow.  In particular a zero-length range is legal at any address in
`[0, CAPACITY)`, but not at `a = CAPACITY` itself. -/
theorem C1_checked_mem_range_new (a s : Nat) (ha : a < WORD_MOD) (hs : s < WORD_MOD) :
    (a < VM_MAX_RAM ∧ a + s ≤ VM_MAX_RAM →
      CheckedMemRange.new a s = .ok ⟨a, a + s⟩) ∧
    (¬ (a < VM_MAX_RAM ∧ a + s ≤ VM_MAX_RAM) →
      CheckedMemRange.new a s = .error (.panic .MemoryOverflow)) ∧
    (s = 0 → a < VM_MAX_RAM → CheckedMemRange.new a s = .ok ⟨a, a⟩) := by
  have hCAP : VM_MAX_RAM < WORD_MOD := by decide
  refine ⟨?_, ?_, ?_⟩
  · rintro ⟨h1, h2⟩
    unfold CheckedMemRange.new CheckedMemRange.new_inner CheckedMemRange.DEFAULT_CONSTRAINT
    simp only [overflowing_add, WordRange.containsW]
    rw [Nat.mod_eq_of_lt (by omega)]
    rw [if_neg (by simp only [decide_eq_true_eq]; push_neg; omega)]
  · intro h
    unfold CheckedMemRange.new CheckedMemRange.new_inner CheckedMemRange.DEFAULT_CONSTRAINT
    simp only [overflowing_add, WordRange.containsW]
    by_cases hof : WORD_MOD ≤ a + s
    · rw [if_pos (Or.inl (by simpa using hof))]
    · rw [Nat.mod_eq_of_lt (by omega)]
      by_cases h1 : a < VM_MAX_RAM
      · rw [if_pos (Or.inr (Or.inr ⟨by omega, by omega⟩))]
      · rw [if_pos (Or.inr (Or.inl (by omega)))]
  · intro hs0 h1
    subst hs0
    unfold CheckedMemRange.new CheckedMemRange.new_inner CheckedMemRange.DEFAULT_CONSTRAINT
    simp only [overflowing_add, WordRange.containsW]
    rw [Nat.mod_eq_of_lt (by omega)]
    rw [if_neg (by simp only [decide_eq_true_eq]; push_neg; omega)]
    rfl

/-- C1 witness: the amended characterization applied at `a = 3`, `s = 4`. -/
theorem C1_witness :
    CheckedMemRange.new 3 4 = .ok ⟨3, 7⟩ :=
  (C1_checked_mem_range_new 3 4 (by decide) (by decide)).1 (by decide)

/-- C6 counterexample: the range `[5, 10)` (constructed by `new(5, 5)`) after
`shrink_end(8)` has `start = 5 > 2 = end`, so narrowing can invert the range,
contrary to the claim that `start ≤ end` always survives narrowing.  (Rust
treats the inverted range as empty.) -/
theorem C6_counterexample :
    CheckedMemRange.new 5 5 = .ok ⟨5, 10⟩ ∧
    ((CheckedMemRange.mk 5 10).shrink_end 8).stop <
      ((CheckedMemRange.mk 5 10).shrink_end 8).start := by
  decide

/-- C6 (amended): `shrink_end` and `grow_start` never widen the range: the
length (`end - start`, zero when the range is inverted, exactly as Rust
computes `Range::len`) never increases, so the worst case of narrowing is an
empty range — but the inverted representation `start > end` can occur. -/
theorem C6_narrowing (r : CheckedMemRange) (n : Nat) (h : r.start < WORD_MOD) :
    (r.shrink_end n).len ≤ r.len ∧ (r.grow_start n).len ≤ r.len := by
  unfold CheckedMemRange.shrink_end CheckedMemRange.grow_start CheckedMemRange.len
    saturating_sub saturating_add
  constructor
  · simp only
    omega
  · simp only [min_def]
    split <;> omega

/-- C6 witness: the amended narrowing bound applied to the range `[5, 10)`
with count 3. -/
theorem C6_witness :
    ((CheckedMemRange.mk 5 10).shrink_end 3).len ≤ (CheckedMemRange.mk 5 10).len ∧
    ((CheckedMemRange.mk 5 10).grow_start 3).len ≤ (CheckedMemRange.mk 5 10).len :=
  C6_narrowing ⟨5, 10⟩ 3 (by decide)

/-
  Layered SubStorage (src/src/substorage.rs).  ContractId, Color, Bytes32,
  Salt and Contract bytecode contents are embedded as Nat (only identity of
  the values matters to the layering logic); HashMaps are embedded
  extensionally as functions into Option.
-/

/-- Per-contract record of the layered storage (`ContractData`): optional
bytecode, per-asset balances, keyed storage slots (inner `none` is a
tombstone), and an optional (salt, root) pair. -/
structure ContractData where
  bytecode : Option Nat
  balance : Nat → Option (Option Nat)
  storage : Nat → Option (Option Nat)
  root : Option (Nat × Nat)

/-- `ContractData::default()`: everything absent. -/
def ContractData.default : ContractData :=
  { bytecode := none, balance := fun _ => none, storage := fun _ => none, root := none }

/-- The backing store behind the layered storage (the `InterpreterStorage`
collaborator), embedded as read functions; the claims quantify over it. -/
structure BackingStore where
  storage_contract : Nat → Option Nat
  storage_contract_root : Nat → Option (Nat × Nat)
  merkle_contract_state : Nat → Nat → Option Nat
  merkle_contract_color_balance : Nat → Nat → Option Nat

/-- VM metadata carried by the SubStorage. -/
structure Metadata where
  coinbase : Nat
  block_height : Nat

/-- The three-layer `SubStorage`: backing state, committed layer, pending
layer. -/
structure SubStorage where
  state : BackingStore
  commited_storage : Nat → Option ContractData
  pending_storage : Nat → Option ContractData
  metadata : Metadata

/-- Field-wise merge of a pending `ContractData` into a committed one, as in
the `Entry::Occupied` arm of `commit_pending`: `extend` on the balance and
storage maps (pending entries win), bytecode only when the pending bytecode
is present, and the root copied unconditionally. -/
def mergeContractData (commited data : ContractData) : ContractData :=
  { balance := fun k => match data.balance k with
      | some v => some v
      | none => commited.balance k
    storage := fun k => match data.storage k with
      | some v => some v
      | none => commited.storage k
    bytecode := if data.bytecode.isSome then data.bytecode else commited.bytecode
    root := data.root }

/-- `SubStorage::commit_pending`: drain the pending layer into the committed
layer (vacant committed entries take the pending record wholesale, occupied
ones are merged field-wise); pending ends up empty. -/
def SubStorage.commit_pending (s : SubStorage) : SubStorage :=
  { s with
    commited_storage := fun c =>
      match s.pending_storage c with
      | none => s.commited_storage c
      | some data =>
        match s.commited_storage c with
        | none => some data
        | some commited => some (mergeContractData commited data)
    pending_storage := fun _ => none }

/-- `SubStorage::reject_pending`: discard the pending layer. -/
def SubStorage.reject_pending (s : SubStorage) : SubStorage :=
  { s with pending_storage := fun _ => none }

/-- Lookup of a keyed sub-map inside one layer: `some` only when the layer
has an entry for the contract and the entry has the key. -/
def layerKeyed (layer : Nat → Option ContractData)
    (proj : ContractData → Nat → Option (Option Nat)) (id k : Nat) :
    Option (Option Nat) :=
  match layer id with
  | some c => proj c k
  | none => none

/-- Bytecode present in one layer. -/
def layerBytecode (layer : Nat → Option ContractData) (id : Nat) : Option Nat :=
  match layer id with
  | some c => c.bytecode
  | none => none

/-- Root present in one layer. -/
def layerRoot (layer : Nat → Option ContractData) (id : Nat) : Option (Nat × Nat) :=
  match layer id with
  | some c => c.root
  | none => none

/-- `MerkleStorage<ContractId, Bytes32, Bytes32>::get`: storage-slot read,
cascading pending, then committed, then the backing state; a present entry
may be a tombstone (`none`). -/
def SubStorage.merkle_contract_state (s : SubStorage) (id k : Nat) : Option Nat :=
  match layerKeyed s.pending_storage ContractData.storage id k with
  | some v => v
  | none =>
    match layerKeyed s.commited_storage ContractData.storage id k with
    | some v => v
    | none => s.state.merkle_contract_state id k

/-- `MerkleStorage<ContractId, Color, Word>::get`: balance read with the same
cascade. -/
def SubStorage.merkle_contract_color_balance (s : SubStorage) (id k : Nat) : Option Nat :=
  match layerKeyed s.pending_storage ContractData.balance id k with
  | some v => v
  | none =>
    match layerKeyed s.commited_storage ContractData.balance id k with
    | some v => v
    | none => s.state.merkle_contract_color_balance id k

/-- `Storage<ContractId, Contract>::get`: bytecode read with the same
cascade (a layer entry without bytecode falls through). -/
def SubStorage.storage_contract (s : SubStorage) (id : Nat) : Option Nat :=
  match layerBytecode s.pending_storage id with
  | some b => some b
  | none =>
    match layerBytecode s.commited_storage id with
    | some b => some b
    | none => s.state.storage_contract id

/-- `Storage<ContractId, (Salt, Bytes32)>::get`: root read with the same
cascade (a layer entry without a root falls through). -/
def SubStorage.storage_contract_root (s : SubStorage) (id : Nat) : Option (Nat × Nat) :=
  match layerRoot s.pending_storage id with
  | some r => some r
  | none =>
    match layerRoot s.commited_storage id with
    | some r => some r
    | none => s.state.storage_contract_root id

/-- One write against the SubStorage; every variant lands in the pending
layer, creating a default entry first (`entry(id).or_default()`). -/
inductive WriteOp where
  | setState (id k v : Nat)
  | setBalance (id color v : Nat)
  | setBytecode (id v : Nat)
  | setRoot (id salt root : Nat)

/-- Apply one write to the pending layer, as the four `insert` impls do. -/
def SubStorage.applyWrite (s : SubStorage) : WriteOp → SubStorage
  | .setState id k v =>
    let entry := (s.pending_storage id).getD ContractData.default
    { s with pending_storage := fun c =>
        if c = id then
          some { entry with storage := fun x => if x = k then some (some v) else entry.storage x }
        else s.pending_storage c }
  | .setBalance id color v =>
    let entry := (s.pending_storage id).getD ContractData.default
    { s with pending_storage := fun c =>
        if c = id then
          some { entry with balance := fun x => if x = color then some (some v) else entry.balance x }
        else s.pending_storage c }
  | .setBytecode id v =>
    let entry := (s.pending_storage id).getD ContractData.default
    { s with pending_storage := fun c =>
        if c = id then some { entry with bytecode := some v } else s.pending_storage c }
  | .setRoot id salt root =>
    let entry := (s.pending_storage id).getD ContractData.default
    { s with pending_storage := fun c =>
        if c = id then some { entry with root := some (salt, root) } else s.pending_storage c }

/-- A sequence of writes, applied in order. -/
def SubStorage.applyWrites (s : SubStorage) (W : List WriteOp) : SubStorage :=
  W.foldl SubStorage.applyWrite s

/-- Writes touch only the pending layer: committed layer, backing state and
metadata are untouched by any write sequence. -/
theorem applyWrites_preserves_lower (W : List WriteOp) :
    ∀ s : SubStorage, (s.applyWrites W).commited_storage = s.commited_storage ∧
      (s.applyWrites W).state = s.state := by
  induction W with
  | nil => intro s; exact ⟨rfl, rfl⟩
  | cons w rest ih =>
    intro s
    have h := ih (s.applyWrite w)
    have hw : (s.applyWrite w).commited_storage = s.commited_storage ∧
        (s.applyWrite w).state = s.state := by
      cases w <;> exact ⟨rfl, rfl⟩
    exact ⟨by rw [SubStorage.applyWrites, List.foldl_cons, ← SubStorage.applyWrites,
        h.1, hw.1], by rw [SubStorage.applyWrites, List.foldl_cons, ← SubStorage.applyWrites,
        h.2, hw.2]⟩

/-- Storage-slot reads are invariant under `commit_pending`. -/
theorem commit_state_read (s : SubStorage) (id k : Nat) :
    s.commit_pending.merkle_contract_state id k = s.merkle_contract_state id k := by
  unfold SubStorage.merkle_contract_state SubStorage.commit_pending layerKeyed
  cases hp : s.pending_storage id with
  | none => simp [hp]
  | some d =>
    cases hc : s.commited_storage id with
    | none =>
      simp only [hp, hc]
    | some cd =>
      simp only [hp, hc, mergeContractData]
      cases d.storage k <;> simp

/-- Balance reads are invariant under `commit_pending`. -/
theorem commit_balance_read (s : SubStorage) (id k : Nat) :
    s.commit_pending.merkle_contract_color_balance id k =
      s.merkle_contract_color_balance id k := by
  unfold SubStorage.merkle_contract_color_balance SubStorage.commit_pending layerKeyed
  cases hp : s.pending_storage id with
  | none => simp [hp]
  | some d =>
    cases hc : s.commited_storage id with
    | none =>
      simp only [hp, hc]
    | some cd =>
      simp only [hp, hc, mergeContractData]
      cases d.balance k <;> simp

/-- Bytecode reads are invariant under `commit_pending`. -/
theorem commit_bytecode_read (s : SubStorage) (id : Nat) :
    s.commit_pending.storage_contract id = s.storage_contract id := by
  unfold SubStorage.storage_contract SubStorage.commit_pending layerBytecode
  cases hp : s.pending_storage id with
  | none => simp [hp]
  | some d =>
    cases hc : s.commited_storage id with
    | none =>
      simp only [hp, hc]
    | some cd =>
      simp only [hp, hc, mergeContractData]
      cases d.bytecode <;> simp

/-- C2 counterexample: part (i) of the claim fails for root reads.  Starting
from a state with empty pending, a committed root (1, 2) for contract 0, and
a backing store with no root, the single balance write `setBalance 0 0 5`
creates a pending entry whose root field is `none`; before `commit_pending`
the root read falls through to the committed layer and yields `some (1, 2)`,
but `commit_pending` copies the pending `none` root over the committed one,
so the read after commit yields `none`. -/
theorem C2_counterexample :
    ((SubStorage.mk
        (BackingStore.mk (fun _ => none) (fun _ => none) (fun _ _ => none) (fun _ _ => none))
        (fun c => if c = 0 then
            some (ContractData.mk none (fun _ => none) (fun _ => none) (some (1, 2)))
          else none)
        (fun _ => none)
        (Metadata.mk 0 0)).applyWrites [.setBalance 0 0 5]).storage_contract_root 0
      = some (1, 2) ∧
    ((SubStorage.mk
        (BackingStore.mk (fun _ => none) (fun _ => none) (fun _ _ => none) (fun _ _ => none))
        (fun c => if c = 0 then
            some (ContractData.mk none (fun _ => none) (fun _ => none) (some (1, 2)))
          else none)
        (fun _ => none)
        (Metadata.mk 0 0)).applyWrites [.setBalance 0 0 5]).commit_pending.storage_contract_root 0
      = none := by
  constructor <;> rfl

/-- C2 (amended): over any backing store and any write sequence W performed
from a transaction boundary (empty pending layer): (i) `commit_pending`
preserves the observed value of storage-slot, balance and bytecode reads —
but not of root reads, because `commit_pending` copies the pending entry
root unconditionally (a pending entry without a root erases a committed
root); (ii) `write(W); reject_pending(); read == read` pre-W for all four
read kinds, and `reject_pending` leaves the committed and backing layers
unaffected. -/
theorem C2_substorage_commit_reject (s : SubStorage) (W : List WriteOp) (id k : Nat) :
    ((s.applyWrites W).commit_pending.merkle_contract_state id k =
        (s.applyWrites W).merkle_contract_state id k) ∧
    ((s.applyWrites W).commit_pending.merkle_contract_color_balance id k =
        (s.applyWrites W).merkle_contract_color_balance id k) ∧
    ((s.applyWrites W).commit_pending.storage_contract id =
        (s.applyWrites W).storage_contract id) ∧
    ((s.applyWrites W).reject_pending.commited_storage = s.commited_storage ∧
      (s.applyWrites W).reject_pending.state = s.state) ∧
    ((∀ c, s.pending_storage c = none) →
      ((s.applyWrites W).reject_pending.merkle_contract_state id k =
          s.merkle_contract_state id k) ∧
      ((s.applyWrites W).reject_pending.merkle_contract_color_balance id k =
          s.merkle_contract_color_balance id k) ∧
      ((s.applyWrites W).reject_pending.storage_contract id = s.storage_contract id) ∧
      ((s.applyWrites W).reject_pending.storage_contract_root id =
          s.storage_contract_root id)) := by
  have hlow := applyWrites_preserves_lower W s
  refine ⟨commit_state_read _ _ _, commit_balance_read _ _ _, commit_bytecode_read _ _,
    ⟨hlow.1, hlow.2⟩, ?_⟩
  intro hempty
  refine ⟨?_, ?_, ?_, ?_⟩
  · unfold SubStorage.merkle_contract_state SubStorage.reject_pending layerKeyed
    simp only [hlow.1, hlow.2, hempty id]
  · unfold SubStorage.merkle_contract_color_balance SubStorage.reject_pending layerKeyed
    simp only [hlow.1, hlow.2, hempty id]
  · unfold SubStorage.storage_contract SubStorage.reject_pending layerBytecode
    simp only [hlow.1, hlow.2, hempty id]
  · unfold SubStorage.storage_contract_root SubStorage.reject_pending layerRoot
    simp only [hlow.1, hlow.2, hempty id]

/-- C2 witness: the amended commit/reject laws applied to a concrete state
with empty pending, one committed slot and one write. -/
theorem C2_witness :
    ((SubStorage.mk
        (BackingStore.mk (fun _ => none) (fun _ => none) (fun _ _ => none) (fun _ _ => none))
        (fun _ => none) (fun _ => none)
        (Metadata.mk 0 0)).applyWrites
          [.setState 1 2 3]).reject_pending.merkle_contract_state 1 2 =
      (SubStorage.mk
        (BackingStore.mk (fun _ => none) (fun _ => none) (fun _ _ => none) (fun _ _ => none))
        (fun _ => none) (fun _ => none)
        (Metadata.mk 0 0)).merkle_contract_state 1 2 :=
  ((C2_substorage_commit_reject
      (SubStorage.mk
        (BackingStore.mk (fun _ => none) (fun _ => none) (fun _ _ => none) (fun _ _ => none))
        (fun _ => none) (fun _ => none)
        (Metadata.mk 0 0)) [.setState 1 2 3] 1 2).2.2.2.2 (fun _ => rfl)).1

/-- C3 counterexample: the claim says the pending root overwrites the
committed root only when it is present, but `commit_pending` copies it
unconditionally.  With a committed root (1, 2) for contract 0 and a pending
entry whose root is `none` (such as one created by a balance write), the
merged committed entry has root `none`. -/
theorem C3_counterexample :
    ((SubStorage.mk
        (BackingStore.mk (fun _ => none) (fun _ => none) (fun _ _ => none) (fun _ _ => none))
        (fun c => if c = 0 then
            some (ContractData.mk none (fun _ => none) (fun _ => none) (some (1, 2)))
          else none)
        (fun c => if c = 0 then
            some (ContractData.mk none (fun x => if x = 0 then some (some 5) else none)
              (fun _ => none) none)
          else none)
        (Metadata.mk 0 0)).commit_pending.commited_storage 0).map ContractData.root
      = some none := by
  rfl

/-- C3 (amended): `commit_pending` merges every pending contract entry
field-wise into the committed layer: pending balance and storage entries
(including `none` tombstones) overwrite the committed ones key-by-key,
pending bytecode overwrites the committed bytecode only when it is present,
and the pending root overwrites the committed root unconditionally — even
when the pending root is absent.  After `commit_pending` the pending layer
is empty. -/
theorem C3_commit_pending_merge (s : SubStorage) (c k b : Nat) :
    s.commit_pending.pending_storage c = none ∧
    (match s.pending_storage c, s.commited_storage c with
     | none, _ => s.commit_pending.commited_storage c = s.commited_storage c
     | some d, none => s.commit_pending.commited_storage c = some d
     | some d, some cd =>
       ∃ e, s.commit_pending.commited_storage c = some e ∧
         e.storage k = (match d.storage k with
           | some v => some v
           | none => cd.storage k) ∧
         e.balance b = (match d.balance b with
           | some v => some v
           | none => cd.balance b) ∧
         e.bytecode = (if d.bytecode.isSome then d.bytecode else cd.bytecode) ∧
         e.root = d.root) := by
  refine ⟨rfl, ?_⟩
  cases hp : s.pending_storage c with
  | none => simp [SubStorage.commit_pending, hp]
  | some d =>
    cases hc : s.commited_storage c with
    | none => simp [SubStorage.commit_pending, hp, hc]
    | some cd =>
      refine ⟨mergeContractData cd d, ?_, rfl, rfl, rfl, rfl⟩
      simp [SubStorage.commit_pending, hp, hc]

/-
  Executable-transaction output maintenance
  (src/fuel-vm/src/interpreter.rs `ExecutableTransaction`, and the older
  src/src/interpreter.rs for `replace_message_output`).  The `Output` enum
  lives in the fuel-tx crate of the repository, outside the provided
  sources; it is modelled from the spec with the fields the operations
  inspect.  Addresses, asset ids and the other 32-byte values are Nat; the
  base asset id (`AssetId::BASE`, all zero bytes) is 0.
-/

/-- Transaction output.  Modelled from the spec: the fuel-tx `Output` enum
with the fields used by output maintenance (Change and Variable carry an
asset id and an amount, Contract carries its input index, Message carries a
recipient and an amount). -/
inductive Output where
  | Coin (to_ amount asset_id : Nat)
  | Contract (input_index balance_root state_root : Nat)
  | Message (recipient amount : Nat)
  | Change (to_ amount asset_id : Nat)
  | Variable (to_ amount asset_id : Nat)
  | ContractCreated (contract_id state_root : Nat)
deriving DecidableEq

/-- `Output::is_variable`. -/
def Output.is_variable : Output → Bool
  | .Variable _ _ _ => true
  | _ => false

/-- Check errors surfaced by `update_outputs` (fuel-tx `CheckError`). -/
inductive CheckError where
  | ArithmeticOverflow
deriving DecidableEq

/-- `ExecutableTransaction::replace_variable_output`: rejects a non-Variable
replacement with ExpectedOutputVariable, otherwise replaces the output at
`idx` when it is a Variable with amount 0 and fails OutputNotFound when the
slot is missing or does not match. -/
def replace_variable_output (outputs : List Output) (idx : Nat) (output : Output) :
    Except PanicReason (List Output) :=
  if !output.is_variable then
    .error .ExpectedOutputVariable
  else
    match outputs[idx]? with
    | some (.Variable _ 0 _) => .ok (outputs.set idx output)
    | _ => .error .OutputNotFound

/-- `ExecutableTransaction::replace_message_output` (older interpreter):
rejects with OutputNotFound unless the replacement is a Message with a
non-zero recipient, then replaces the output at `idx` when it is a Message
with a zero recipient and fails NonZeroMessageOutputRecipient when the slot
is missing or does not match. -/
def replace_message_output (outputs : List Output) (idx : Nat) (output : Output) :
    Except PanicReason (List Output) :=
  match output with
  | .Message recipient _ =>
    if recipient = 0 then
      .error .OutputNotFound
    else
      match outputs[idx]? with
      | some (.Message r _) =>
        if r = 0 then .ok (outputs.set idx output)
        else .error .NonZeroMessageOutputRecipient
      | _ => .error .NonZeroMessageOutputRecipient
  | _ => .error .OutputNotFound

/-- One arm of the `update_outputs` fold, mirroring the source match arms in
their order (guards on `revert` and on the base asset id).  `initial` is the
`initial_balances.non_retryable` index and `balances` the runtime balance
index, both total as in the Rust `Index` bound. -/
def update_output_one (revert : Bool) (gas_refund : Nat) (initial balances : Nat → Nat) :
    Output → Except CheckError Output
  | .Change to_ _amount asset_id =>
    if revert && decide (asset_id = 0) then
      match checked_add_u64 (initial 0) gas_refund with
      | some v => .ok (.Change to_ v asset_id)
      | none => .error .ArithmeticOverflow
    else if revert then
      .ok (.Change to_ (initial asset_id) asset_id)
    else if decide (asset_id = 0) then
      match checked_add_u64 (balances asset_id) gas_refund with
      | some v => .ok (.Change to_ v asset_id)
      | none => .error .ArithmeticOverflow
    else
      .ok (.Change to_ (balances asset_id) asset_id)
  | .Variable to_ amount asset_id =>
    if revert then .ok (.Variable to_ 0 asset_id) else .ok (.Variable to_ amount asset_id)
  | o => .ok o

/-- The `try_for_each` traversal over the outputs list: stops at the first
error. -/
def try_for_each_update (f : Output → Except CheckError Output) :
    List Output → Except CheckError (List Output)
  | [] => .ok []
  | o :: rest =>
    match f o with
    | .error e => .error e
    | .ok o2 =>
      match try_for_each_update f rest with
      | .error e => .error e
      | .ok rest2 => .ok (o2 :: rest2)

/-- `ExecutableTransaction::update_outputs`.  The gas refund is computed by
the fuel-tx collaborator `TransactionFee::gas_refund_value(params,
remaining_gas, price)` (outside the provided sources); its result is taken
as the `gas_refund` parameter here, `none` meaning the computation
overflowed. -/
def update_outputs (gas_refund : Option Nat) (revert : Bool)
    (initial balances : Nat → Nat) (outputs : List Output) :
    Except CheckError (List Output) :=
  match gas_refund with
  | none => .error .ArithmeticOverflow
  | some gr => try_for_each_update (update_output_one revert gr initial balances) outputs

/-- The per-output update as the claim states it: case split on the output
variant first, then on revert and on the base asset. -/
def updateOneClaim (revert : Bool) (gas_refund : Nat) (initial balances : Nat → Nat) :
    Output → Except CheckError Output
  | .Change to_ _amount asset_id =>
    if revert then
      if asset_id = 0 then
        match checked_add_u64 (initial 0) gas_refund with
        | some v => .ok (.Change to_ v asset_id)
        | none => .error .ArithmeticOverflow
      else .ok (.Change to_ (initial asset_id) asset_id)
    else
      if asset_id = 0 then
        match checked_add_u64 (balances 0) gas_refund with
        | some v => .ok (.Change to_ v asset_id)
        | none => .error .ArithmeticOverflow
      else .ok (.Change to_ (balances asset_id) asset_id)
  | .Variable to_ amount asset_id =>
    if revert then .ok (.Variable to_ 0 asset_id) else .ok (.Variable to_ amount asset_id)
  | o => .ok o

/-- The source match arms coincide with the claim's case analysis. -/
theorem update_output_one_eq_claim (revert : Bool) (gr : Nat)
    (initial balances : Nat → Nat) (o : Output) :
    update_output_one revert gr initial balances o =
      updateOneClaim revert gr initial balances o := by
  cases o with
  | Change to_ amount asset_id =>
    by_cases h0 : asset_id = 0
    · subst h0
      cases revert <;> rfl
    · cases revert <;> simp [update_output_one, updateOneClaim, h0]
  | Variable to_ amount asset_id => cases revert <;> rfl
  | Coin x y z => cases revert <;> rfl
  | Contract x y z => cases revert <;> rfl
  | Message x y => cases revert <;> rfl
  | ContractCreated x y => cases revert <;> rfl

/-- C4: `update_outputs` first resolves the gas refund, failing with
ArithmeticOverflow when that collaborator computation overflows, and then
rewrites only Change and Variable outputs exactly as the claim describes —
under revert a base-asset Change becomes `initial_non_retryable[BASE] +
gas_refund` (checked add surfacing ArithmeticOverflow) and any other Change
becomes `initial_non_retryable[asset]`; without revert a base-asset Change
becomes `balances[BASE] + gas_refund` (checked add) and any other Change
becomes `balances[asset]`; under revert every Variable amount becomes 0; all
other outputs are unchanged. -/
theorem C4_update_outputs (gas_refund : Option Nat) (revert : Bool)
    (initial balances : Nat → Nat) (outputs : List Output) :
    update_outputs gas_refund revert initial balances outputs =
      match gas_refund with
      | none => .error .ArithmeticOverflow
      | some gr => try_for_each_update (updateOneClaim revert gr initial balances) outputs := by
  cases gas_refund with
  | none => rfl
  | some gr =>
    simp only [update_outputs]
    rw [funext (update_output_one_eq_claim revert gr initial balances)]

/-- C8: `replace_variable_output` fails ExpectedOutputVariable for a
non-Variable replacement; otherwise it fails OutputNotFound when the slot is
missing or is not a zero-amount Variable; otherwise it replaces exactly the
output at `idx`, leaving every other output unchanged. -/
theorem C8_replace_variable_output (outputs : List Output) (idx : Nat) (output : Output) :
    (output.is_variable = false →
      replace_variable_output outputs idx output = .error .ExpectedOutputVariable) ∧
    (∀ t a, output.is_variable = true →
      outputs[idx]? = some (.Variable t 0 a) →
      replace_variable_output outputs idx output = .ok (outputs.set idx output)) ∧
    (output.is_variable = true →
      (∀ t a, outputs[idx]? ≠ some (.Variable t 0 a)) →
      replace_variable_output outputs idx output = .error .OutputNotFound) ∧
    (∀ j, j ≠ idx → (outputs.set idx output)[j]? = outputs[j]?) := by
  refine ⟨?_, ?_, ?_, ?_⟩
  · intro hv
    simp [replace_variable_output, hv]
  · intro t a hv hslot
    simp [replace_variable_output, hv, hslot]
  · intro hv hslot
    cases h : outputs[idx]? with
    | none => simp [replace_variable_output, hv, h]
    | some o =>
      cases o with
      | Variable t amt a =>
        cases amt with
        | zero => exact absurd h (hslot t a)
        | succ n => simp [replace_variable_output, hv, h]
      | Coin x y z => simp [replace_variable_output, hv, h]
      | Contract x y z => simp [replace_variable_output, hv, h]
      | Message x y => simp [replace_variable_output, hv, h]
      | Change x y z => simp [replace_variable_output, hv, h]
      | ContractCreated x y => simp [replace_variable_output, hv, h]
  · intro j hj
    exact List.getElem?_set_ne (fun h => hj h.symm)

/-- C8 witness: on `[Variable 1 0 2, Coin 3 4 5]` the replacement of slot 0
by `Variable 6 10 7` succeeds, slot 1 fails OutputNotFound, and a Coin
replacement fails ExpectedOutputVariable, with the untouched slot
preserved. -/
theorem C8_witness :
    replace_variable_output [.Variable 1 0 2, .Coin 3 4 5] 0 (.Variable 6 10 7) =
      .ok [.Variable 6 10 7, .Coin 3 4 5] ∧
    replace_variable_output [.Variable 1 0 2, .Coin 3 4 5] 1 (.Variable 6 10 7) =
      .error .OutputNotFound ∧
    replace_variable_output [.Variable 1 0 2, .Coin 3 4 5] 0 (.Coin 6 10 7) =
      .error .ExpectedOutputVariable := by
  refine ⟨?_, ?_, ?_⟩
  · exact (C8_replace_variable_output [.Variable 1 0 2, .Coin 3 4 5] 0
      (.Variable 6 10 7)).2.1 1 2 (by decide) (by decide)
  · exact (C8_replace_variable_output [.Variable 1 0 2, .Coin 3 4 5] 1
      (.Variable 6 10 7)).2.2.1 (by decide) (by intro t a h; simp at h)
  · exact (C8_replace_variable_output [.Variable 1 0 2, .Coin 3 4 5] 0
      (.Coin 6 10 7)).1 (by decide)

/-- C10: in the older interpreter, `replace_message_output` returns
OutputNotFound when the replacement is not a Message with a non-zero
recipient, returns NonZeroMessageOutputRecipient when the slot at `idx` is
missing or is not a zero-recipient Message (the two panic reasons are indeed
attached to the opposite failure modes from what their names suggest), and
succeeds exactly when the replacement is a non-zero-recipient Message and
the slot holds a zero-recipient Message, replacing only that slot. -/
theorem C10_replace_message_output (outputs : List Output) (idx : Nat) (output : Output) :
    ((∀ r amt, output ≠ .Message r amt) →
      replace_message_output outputs idx output = .error .OutputNotFound) ∧
    (∀ amt, replace_message_output outputs idx (.Message 0 amt) = .error .OutputNotFound) ∧
    (∀ r amt amt2, r ≠ 0 → outputs[idx]? = some (.Message 0 amt2) →
      replace_message_output outputs idx (.Message r amt) =
        .ok (outputs.set idx (.Message r amt))) ∧
    (∀ r amt, r ≠ 0 → (∀ amt2, outputs[idx]? ≠ some (.Message 0 amt2)) →
      replace_message_output outputs idx (.Message r amt) =
        .error .NonZeroMessageOutputRecipient) ∧
    (∀ j, j ≠ idx → (outputs.set idx output)[j]? = outputs[j]?) := by
  refine ⟨?_, ?_, ?_, ?_, ?_⟩
  · intro h
    cases output with
    | Message r amt => exact absurd rfl (h r amt)
    | Coin a b c => rfl
    | Contract a b c => rfl
    | Change a b c => rfl
    | Variable a b c => rfl
    | ContractCreated a b => rfl
  · intro amt
    simp [replace_message_output]
  · intro r amt amt2 hr hslot
    simp [replace_message_output, hr, hslot]
  · intro r amt hr hslot
    cases h : outputs[idx]? with
    | none => simp [replace_message_output, hr, h]
    | some o =>
      cases o with
      | Message r2 amt2 =>
        by_cases h2 : r2 = 0
        · subst h2
          exact absurd h (hslot amt2)
        · simp [replace_message_output, hr, h, h2]
      | Coin x y z => simp [replace_message_output, hr, h]
      | Contract x y z => simp [replace_message_output, hr, h]
      | Change x y z => simp [replace_message_output, hr, h]
      | Variable x y z => simp [replace_message_output, hr, h]
      | ContractCreated x y => simp [replace_message_output, hr, h]
  · intro j hj
    exact List.getElem?_set_ne (fun h => hj h.symm)

/-- C10 witness: with outputs `[Message 0 9, Coin 3 4 5]`, replacing slot 0
by `Message 7 1` succeeds; a zero-recipient replacement fails OutputNotFound;
and against slot 1 the non-zero replacement fails
NonZeroMessageOutputRecipient. -/
theorem C10_witness :
    replace_message_output [.Message 0 9, .Coin 3 4 5] 0 (.Message 7 1) =
      .ok [.Message 7 1, .Coin 3 4 5] ∧
    replace_message_output [.Message 0 9, .Coin 3 4 5] 0 (.Message 0 1) =
      .error .OutputNotFound ∧
    replace_message_output [.Message 0 9, .Coin 3 4 5] 1 (.Message 7 1) =
      .error .NonZeroMessageOutputRecipient := by
  refine ⟨?_, ?_, ?_⟩
  · exact (C10_replace_message_output [.Message 0 9, .Coin 3 4 5] 0
      (.Message 7 1)).2.2.1 7 1 9 (by decide) (by decide)
  · exact (C10_replace_message_output [.Message 0 9, .Coin 3 4 5] 0
      (.Message 0 1)).2.1 1
  · exact (C10_replace_message_output [.Message 0 9, .Coin 3 4 5] 1
      (.Message 7 1)).2.2.2.1 7 1 (by decide) (by intro amt2 h; simp at h)

/-
  Stack reservation (src/fuel-vm/src/interpreter/internal.rs
  `Interpreter::reserve_stack`).  The register file is embedded with the
  registers the operation touches or the claim mentions.
-/

/-- Execution context.  Modelled from the spec: tagged variants Script, Call
and Predicate each carrying a block height; `is_external` is true only for
Script and Predicate (context.rs is not among the provided sources). -/
inductive Context where
  | Script (block_height : Nat)
  | Predicate (block_height : Nat)
  | Call (block_height : Nat)
deriving DecidableEq

/-- `Context::is_external`. -/
def Context.is_external : Context → Bool
  | .Script _ => true
  | .Predicate _ => true
  | .Call _ => false

/-- The registers reserve_stack reads or writes, plus HP for the claim. -/
structure VmRegs where
  sp : Nat
  ssp : Nat
  hp : Nat
deriving DecidableEq

/-- `Interpreter::reserve_stack`: `SSP.overflowing_add(len)`; faults
MemoryOverflow on overflow, or — when the context is not external — when the
new SSP exceeds SP; otherwise stores the new SSP and returns the old one.
The register file is returned alongside the result to expose that a fault
leaves it untouched. -/
def reserve_stack (ctx : Context) (len : Nat) (regs : VmRegs) :
    Except RuntimeError Nat × VmRegs :=
  let ssp := (regs.ssp + len) % WORD_MOD
  let overflow := WORD_MOD ≤ regs.ssp + len
  if overflow ∨ (ctx.is_external = false ∧ regs.sp < ssp) then
    (.error (.panic .MemoryOverflow), regs)
  else
    (.ok regs.ssp, { regs with ssp := ssp })

/-- C7 counterexample: in an external context with SP = 5, SSP = 10,
HP = 20, `reserve_stack(100)` succeeds and sets SSP := 110 even though the
new SSP exceeds HP — no MemoryOverflow fault is raised, contradicting the
claim that any growth making SSP exceed HP faults. -/
theorem C7_counterexample :
    reserve_stack (.Script 0) 100 (VmRegs.mk 5 10 20) =
      (.ok 10, VmRegs.mk 5 110 20) ∧
    (VmRegs.mk 5 10 20).hp < 110 := by
  constructor
  · rw [reserve_stack, if_neg (by simp [Context.is_external]; decide)]
    rfl
  · decide

/-- C7 (amended): `reserve_stack(len)` adds len to SSP with an overflow
check and, when the context is internal, additionally enforces that the new
SSP does not exceed SP; on overflow, or on an internal-context violation of
SSP ≤ SP, it faults MemoryOverflow without mutating any register (SSP
unchanged); on success it sets SSP := SSP + len and returns the old SSP as
the write target.  No check against HP is performed: in an external context
any non-overflowing growth succeeds, even past HP. -/
theorem C7_reserve_stack (ctx : Context) (len : Nat) (regs : VmRegs) :
    (WORD_MOD ≤ regs.ssp + len →
      reserve_stack ctx len regs = (.error (.panic .MemoryOverflow), regs)) ∧
    (regs.ssp + len < WORD_MOD → ctx.is_external = true →
      reserve_stack ctx len regs =
        (.ok regs.ssp, { regs with ssp := regs.ssp + len })) ∧
    (regs.ssp + len < WORD_MOD → ctx.is_external = false →
      regs.ssp + len ≤ regs.sp →
      reserve_stack ctx len regs =
        (.ok regs.ssp, { regs with ssp := regs.ssp + len })) ∧
    (regs.ssp + len < WORD_MOD → ctx.is_external = false →
      regs.sp < regs.ssp + len →
      reserve_stack ctx len regs = (.error (.panic .MemoryOverflow), regs)) := by
  refine ⟨?_, ?_, ?_, ?_⟩
  · intro hof
    rw [reserve_stack, if_pos (Or.inl hof)]
  · intro hof hext
    rw [reserve_stack, if_neg]
    · rw [Nat.mod_eq_of_lt hof]
    · rw [hext]
      push_neg
      exact ⟨by omega, fun h => absurd h (by simp)⟩
  · intro hof hext hle
    rw [reserve_stack, if_neg]
    · rw [Nat.mod_eq_of_lt hof]
    · rw [Nat.mod_eq_of_lt hof]
      push_neg
      exact ⟨by omega, fun _ => by omega⟩
  · intro hof hext hgt
    rw [reserve_stack, if_pos]
    right
    rw [Nat.mod_eq_of_lt hof]
    exact ⟨hext, hgt⟩

/-- C7 witness: the amended characterization applied in an internal context
with SSP = 10, SP = 5 and len = 1 (fault, registers untouched). -/
theorem C7_witness :
    reserve_stack (.Call 0) 1 (VmRegs.mk 5 10 20) =
      (.error (.panic .MemoryOverflow), VmRegs.mk 5 10 20) :=
  (C7_reserve_stack (.Call 0) 1 (VmRegs.mk 5 10 20)).2.2.2 (by decide) (by decide) (by decide)

/-
  The ecrecover opcode (src/fuel-vm/src/interpreter/crypto.rs).  The memory
  subsystem (VmMemory, OwnershipRegisters, try_mem_write, try_zeroize in
  fuel-vm/src/interpreter/memory.rs) and the checked Word arithmetic helpers
  (fuel-vm/src/arith.rs) are not among the provided sources; they are
  modelled from the spec (sections 3, 4.2 and 4.7).  Memory is a byte
  function on addresses; the secp256k1 recovery routine is an external
  collaborator taken as a function parameter.
-/

/-- `arith::checked_add_word`: checked Word addition surfacing the
recoverable ArithmeticOverflow.  Modelled from the spec: arith.rs is not
among the provided sources. -/
def checked_add_word (a b : Nat) : Except RuntimeError Nat :=
  if a + b < WORD_MOD then .ok (a + b) else .error (.panic .ArithmeticOverflow)

/-- `arith::checked_sub_word`: checked Word subtraction surfacing the
recoverable ArithmeticOverflow.  Modelled from the spec. -/
def checked_sub_word (a b : Nat) : Except RuntimeError Nat :=
  if b ≤ a then .ok (a - b) else .error (.panic .ArithmeticOverflow)

/-- `MIN_VM_MAX_RAM_USIZE_MAX`: the minimum of `VM_MAX_RAM` and usize::MAX.
Modelled from the spec (consts.rs is not among the provided sources). -/
def MIN_VM_MAX_RAM_USIZE_MAX : Nat := min VM_MAX_RAM (WORD_MOD - 1)

/-- `Instruction::SIZE`: instructions are four bytes. -/
def INSTRUCTION_SIZE : Nat := 4

/-- Ownership registers.  Modelled from the spec, section 3: the snapshot
(SP, SSP, HP, prev-HP) plus context used to decide write permission, with
the external-context transaction memory region ending at
`tx_region_stop`. -/
structure OwnershipRegisters where
  sp : Nat
  ssp : Nat
  hp : Nat
  prev_hp : Nat
  context : Context
  tx_region_stop : Nat

/-- The write-permission rule of the ownership registers.  Modelled from the
spec, section 3: a write to `[a, a+n)` is permitted iff it lies entirely in
the current stack frame `[SSP, SP)`, or entirely in the owned heap
`[HP, prev-HP)`, or the context is external and it lies in the transaction
memory region. -/
def ownsRange (o : OwnershipRegisters) (a n : Nat) : Bool :=
  (decide (o.ssp ≤ a) && decide (a + n ≤ o.sp)) ||
  (decide (o.hp ≤ a) && decide (a + n ≤ o.prev_hp)) ||
  (o.context.is_external && decide (a + n ≤ o.tx_region_stop))

/-- Read `n` bytes of memory starting at `addr` (`VmMemory::read_bytes`). -/
def readBytes (mem : Nat → Nat) (addr n : Nat) : List Nat :=
  (List.range n).map (fun i => mem (addr + i))

/-- Overwrite memory at `addr` with the given bytes. -/
def writeBytes (mem : Nat → Nat) (addr : Nat) (data : List Nat) : Nat → Nat :=
  fun i => if addr ≤ i ∧ i < addr + data.length then data.getD (i - addr) 0 else mem i

/-- Zero a memory region. -/
def zeroBytes (mem : Nat → Nat) (addr n : Nat) : Nat → Nat :=
  fun i => if addr ≤ i ∧ i < addr + n then 0 else mem i

/-- `try_mem_write`: bounds- and ownership-checked write.  Modelled from the
spec, sections 4.2 and 3: bounds-check against CAPACITY, then the ownership
rule; failure is the recoverable MemoryOverflow. -/
def try_mem_write (addr : Nat) (data : List Nat) (owner : OwnershipRegisters)
    (mem : Nat → Nat) : Except RuntimeError (Nat → Nat) :=
  if addr + data.length ≤ VM_MAX_RAM && ownsRange owner addr data.length then
    .ok (writeBytes mem addr data)
  else
    .error (.panic .MemoryOverflow)

/-- `try_zeroize`: bounds- and ownership-checked zeroing.  Modelled from the
spec like `try_mem_write`. -/
def try_zeroize (addr len : Nat) (owner : OwnershipRegisters)
    (mem : Nat → Nat) : Except RuntimeError (Nat → Nat) :=
  if addr + len ≤ VM_MAX_RAM && ownsRange owner addr len then
    .ok (zeroBytes mem addr len)
  else
    .error (.panic .MemoryOverflow)

/-- The mutable state ecrecover touches: memory plus the ERR and PC
registers. -/
structure CryptoState where
  memory : Nat → Nat
  err : Nat
  pc : Nat

/-- `inc_pc`: PC advances by one instruction size with a checked add;
failure is the recoverable ArithmeticOverflow. -/
def inc_pc_state (st : CryptoState) : Except RuntimeError CryptoState :=
  match checked_add_u64 st.pc INSTRUCTION_SIZE with
  | some p => .ok { st with pc := p }
  | none => .error (.panic .ArithmeticOverflow)

/-- The `ecrecover(a, b, c)` opcode: checked range computation for the
64-byte signature at `b` and 32-byte message at `c` and the 64-byte
destination at `a`; on successful recovery the public key is written
(ownership-checked) to `a` and ERR is cleared; on recovery failure the 64
destination bytes are zeroed and ERR is set; then PC advances.  `recover` is
the external secp256k1 collaborator (fuel-crypto). -/
def ecrecover (recover : List Nat → List Nat → Option (List Nat))
    (owner : OwnershipRegisters) (st : CryptoState) (a b c : Nat) :
    Except RuntimeError CryptoState := do
  let bx ← checked_add_word b 64
  let cx ← checked_add_word c 32
  let lim ← checked_sub_word VM_MAX_RAM 64
  if lim < a ∨ MIN_VM_MAX_RAM_USIZE_MAX < bx ∨ MIN_VM_MAX_RAM_USIZE_MAX < cx then
    .error (.panic .MemoryOverflow)
  else
    let sig := readBytes st.memory b 64
    let msg := readBytes st.memory c 32
    match recover sig msg with
    | some pub_key => do
      let m2 ← try_mem_write a pub_key owner st.memory
      inc_pc_state { st with memory := m2, err := 0 }
    | none => do
      let m2 ← try_zeroize a 64 owner st.memory
      inc_pc_state { st with memory := m2, err := 1 }

/-- Reduction of an Except bind over an ok value. -/
theorem exceptBindOk {e a b : Type} (x : a) (f : a → Except e b) :
    (Except.ok x >>= f) = f x := rfl

/-- C9: once the range checks of ecrecover pass and the destination write is
permitted by the ownership rule, the opcode reads the 64-byte signature at
`b` and the 32-byte message at `c`; when recovery succeeds it writes the
64-byte public key at `a` and clears ERR to 0, and when recovery fails it
zeroes the 64 destination bytes and sets ERR to 1; in both cases PC then
advances by one instruction size. -/
theorem C9_ecrecover (recover : List Nat → List Nat → Option (List Nat))
    (owner : OwnershipRegisters) (st : CryptoState) (a b c : Nat)
    (ha : a ≤ VM_MAX_RAM - 64)
    (hb : b + 64 ≤ MIN_VM_MAX_RAM_USIZE_MAX)
    (hc : c + 32 ≤ MIN_VM_MAX_RAM_USIZE_MAX)
    (hown : ownsRange owner a 64 = true)
    (hpc : st.pc + INSTRUCTION_SIZE < WORD_MOD)
    (hlen : ∀ pk, recover (readBytes st.memory b 64) (readBytes st.memory c 32) = some pk →
      pk.length = 64) :
    (∀ pk, recover (readBytes st.memory b 64) (readBytes st.memory c 32) = some pk →
      ecrecover recover owner st a b c =
        .ok (CryptoState.mk (writeBytes st.memory a pk) 0 (st.pc + INSTRUCTION_SIZE))) ∧
    (recover (readBytes st.memory b 64) (readBytes st.memory c 32) = none →
      ecrecover recover owner st a b c =
        .ok (CryptoState.mk (zeroBytes st.memory a 64) 1 (st.pc + INSTRUCTION_SIZE))) := by
  have hCAP : VM_MAX_RAM < WORD_MOD := by decide
  have hbw : b + 64 < WORD_MOD := by
    have : MIN_VM_MAX_RAM_USIZE_MAX < WORD_MOD := by decide
    omega
  have hcw : c + 32 < WORD_MOD := by
    have : MIN_VM_MAX_RAM_USIZE_MAX < WORD_MOD := by decide
    omega
  have hawrite : a + 64 ≤ VM_MAX_RAM := by
    have h64 : (64 : Nat) ≤ VM_MAX_RAM := by decide
    omega
  constructor
  · intro pk hrec
    rw [ecrecover]
    rw [checked_add_word, if_pos hbw, checked_add_word, if_pos hcw,
      checked_sub_word, if_pos (show (64 : Nat) ≤ VM_MAX_RAM from by decide)]
    simp only [exceptBindOk]
    rw [if_neg (by push_neg; exact ⟨by omega, by omega, by omega⟩)]
    simp only [hrec]
    rw [try_mem_write, hlen pk hrec]
    rw [if_pos (by simp only [hown, Bool.and_true]; exact decide_eq_true hawrite)]
    simp only [exceptBindOk]
    rw [inc_pc_state, checked_add_u64, if_pos hpc]
  · intro hrec
    rw [ecrecover]
    rw [checked_add_word, if_pos hbw, checked_add_word, if_pos hcw,
      checked_sub_word, if_pos (show (64 : Nat) ≤ VM_MAX_RAM from by decide)]
    simp only [exceptBindOk]
    rw [if_neg (by push_neg; exact ⟨by omega, by omega, by omega⟩)]
    simp only [hrec]
    rw [try_zeroize]
    rw [if_pos (by simp only [hown, Bool.and_true]; exact decide_eq_true hawrite)]
    simp only [exceptBindOk]
    rw [inc_pc_state, checked_add_u64, if_pos hpc]

/-- C9 witness: ecrecover applied with a concrete recovery collaborator that
succeeds on the all-zero signature, over zeroed memory and stack-frame
ownership of the destination. -/
theorem C9_witness :
    ecrecover (fun _ _ => some (List.replicate 64 7))
      (OwnershipRegisters.mk 1000 0 VM_MAX_RAM VM_MAX_RAM (.Script 0) 0)
      (CryptoState.mk (fun _ => 0) 9 100) 0 2000 3000 =
      .ok (CryptoState.mk
        (writeBytes (fun _ => 0) 0 (List.replicate 64 7)) 0 104) :=
  (C9_ecrecover (fun _ _ => some (List.replicate 64 7))
      (OwnershipRegisters.mk 1000 0 VM_MAX_RAM VM_MAX_RAM (.Script 0) 0)
      (CryptoState.mk (fun _ => 0) 9 100) 0 2000 3000
      (by decide) (by decide) (by decide) (by decide) (by decide)
      (fun pk h => by cases h; rfl)).1 (List.replicate 64 7) rfl

/-
  Binary Merkle proof verifier (src/fuel-merkle/src/binary/verify.rs).  The
  hash primitives `leaf_sum` and `node_sum` are consensus-defined
  collaborators from the fuel-merkle binary module (outside the provided
  sources) and are taken as function parameters over Nat-encoded digests.
  The climbing loops are embedded with an explicit fuel argument chosen
  large enough that exhaustion is unreachable: the main loop increases
  `height` every iteration and bails out (modelling the 64-bit shift
  overflow of `1 << height` as an arithmetic failure) once `height` reaches
  64, and the final climb stops as soon as `height - 1` reaches the proof
  length, so fuel 64 resp. `proof_set.length + 1` always suffices.
-/

/-- Exit status of the verifier's main climbing loop: an early boolean
verdict (`return Some(false)` on a short proof set) or the loop state
(height, stable_end, sum) at the `break`. -/
inductive LoopExit where
  | early (b : Bool)
  | done (height stable_end sum : Nat)
deriving DecidableEq

/-- The main climbing loop of `verify`: at each height, compute the index
range of the 2^height subtree containing the leaf with checked arithmetic
(any failure propagates as `none`), break once the subtree overflows
`num_leaves`, report `false` when the proof set is shorter than the height,
and otherwise fold the next proof element on the left or right of `sum`
according to the position of the leaf inside the subtree. -/
def verifyLoop (node_sum : Nat → Nat → Nat) (proof_set : List Nat)
    (proof_index num_leaves : Nat) :
    Nat → Nat → Nat → Nat → Option LoopExit
  | 0, _, _, _ => none
  | fuel + 1, height, stable_end, sum =>
    if 64 ≤ height then none
    else
      match checked_div_u64 proof_index (2 ^ height) with
      | none => none
      | some q =>
        match checked_mul_u64 q (2 ^ height) with
        | none => none
        | some subtree_start_index =>
          match checked_add_u64 subtree_start_index (2 ^ height) with
          | none => none
          | some t =>
            match checked_sub_u64 t 1 with
            | none => none
            | some subtree_end_index =>
              if num_leaves ≤ subtree_end_index then
                some (.done height stable_end sum)
              else if proof_set.length < height then
                some (.early false)
              else
                match checked_sub_u64 height 1 with
                | none => none
                | some height_index =>
                  match checked_sub_u64 proof_index subtree_start_index with
                  | none => none
                  | some index_difference =>
                    let proof_data := proof_set.getD height_index 0
                    let sum2 := if index_difference < 2 ^ height_index then
                        node_sum sum proof_data
                      else
                        node_sum proof_data sum
                    match checked_add_u64 height 1 with
                    | none => none
                    | some h2 =>
                      verifyLoop node_sum proof_set proof_index num_leaves
                        fuel h2 subtree_end_index sum2

/-- The final `while height - 1 < proof_set.len()` climb: the remaining
proof elements are folded on the left of `sum`. -/
def finalClimb (node_sum : Nat → Nat → Nat) (proof_set : List Nat) :
    Nat → Nat → Nat → Option Nat
  | 0, _, _ => none
  | fuel + 1, height, sum =>
    match checked_sub_u64 height 1 with
    | none => none
    | some height_index =>
      if height_index < proof_set.length then
        match checked_add_u64 height 1 with
        | none => none
        | some h2 =>
          finalClimb node_sum proof_set fuel h2
            (node_sum (proof_set.getD height_index 0) sum)
      else
        some sum

/-- `binary::verify(root, data, proof_set, proof_index, num_leaves)`:
`some` of the boolean verdict, `none` on index-arithmetic failure.  The
early answers mirror the source: `proof_index >= num_leaves` gives
`some false`, and an empty proof set gives `root == leaf_sum(data)` for a
singleton tree and `false` otherwise; then the main loop, the unbalanced
right-sibling step when the stable subtree does not end at the last leaf,
and the final left climb consume the proof set. -/
def verify (leaf_sum : List Nat → Nat) (node_sum : Nat → Nat → Nat) (root : Nat)
    (data : List Nat) (proof_set : List Nat) (proof_index num_leaves : Nat) :
    Option Bool :=
  let sum := leaf_sum data
  if num_leaves ≤ proof_index then
    some false
  else if proof_set.isEmpty then
    some (if num_leaves = 1 then decide (root = sum) else false)
  else
    match verifyLoop node_sum proof_set proof_index num_leaves 64 1 proof_index sum with
    | none => none
    | some (.early b) => some b
    | some (.done height stable_end sum1) =>
      let leaf_index := num_leaves - 1
      if stable_end ≠ leaf_index then
        if proof_set.length < height then
          some false
        else
          match checked_sub_u64 height 1 with
          | none => none
          | some height_index =>
            let sum2 := node_sum sum1 (proof_set.getD height_index 0)
            match checked_add_u64 height 1 with
            | none => none
            | some h2 =>
              match finalClimb node_sum proof_set (proof_set.length + 1) h2 sum2 with
              | none => none
              | some s => some (decide (s = root))
      else
        match finalClimb node_sum proof_set (proof_set.length + 1) height sum1 with
        | none => none
        | some s => some (decide (s = root))

/-- C5: the verifier returns `some false` whenever
`proof_index >= num_leaves` (hence always when `num_leaves = 0`) and when
the proof set is too short for the position (the empty proof set against any
multi-leaf tree, and — concretely — a one-element proof set for index 2 of a
5-leaf tree); for `num_leaves = 1` with an empty proof set it returns
`some true` iff the root equals the leaf hash of the data; and an overflow
of the index arithmetic is reported as `none`, distinguishable from the
boolean verdict (`some true` is reachable as well). -/
theorem C5_verify (leaf_sum : List Nat → Nat) (node_sum : Nat → Nat → Nat)
    (root : Nat) (data : List Nat) (proof_set : List Nat) (proof_index num_leaves : Nat) :
    (num_leaves ≤ proof_index →
      verify leaf_sum node_sum root data proof_set proof_index num_leaves = some false) ∧
    (num_leaves = 0 →
      verify leaf_sum node_sum root data proof_set proof_index num_leaves = some false) ∧
    (proof_index < num_leaves → num_leaves = 1 → proof_set = [] →
      verify leaf_sum node_sum root data proof_set proof_index num_leaves =
        some (decide (root = leaf_sum data))) ∧
    (proof_index < num_leaves → num_leaves ≠ 1 → proof_set = [] →
      verify leaf_sum node_sum root data proof_set proof_index num_leaves = some false) ∧
    (verify (fun l => l.foldl (fun x y => x + y + 1) 0) (fun x y => x + 2 * y + 1)
      0 [1, 2, 3] [5] 2 5 = some false) ∧
    (verify (fun l => l.foldl (fun x y => x + y + 1) 0) (fun x y => x + 2 * y + 1)
      0 [1] [5] (WORD_MOD - 2) (WORD_MOD - 1) = none) ∧
    (verify (fun l => l.foldl (fun x y => x + y + 1) 0) (fun x y => x + 2 * y + 1)
      ((fun l => l.foldl (fun x y => x + y + 1) 0) [9]) [9] [] 0 1 = some true) := by
  refine ⟨?_, ?_, ?_, ?_, ?_, ?_, ?_⟩
  · intro h
    simp only [verify]
    rw [if_pos h]
  · intro h
    subst h
    simp only [verify]
    rw [if_pos (Nat.zero_le _)]
  · intro h1 h2 h3
    subst h2
    subst h3
    simp only [verify]
    rw [if_neg (by omega)]
    simp
  · intro h1 h2 h3
    subst h3
    simp only [verify]
    rw [if_neg (by omega)]
    simp [h2]
  · decide
  · decide
  · decide

/-- C5 witness: the out-of-range and singleton clauses applied at concrete
inputs. -/
theorem C5_witness :
    verify (fun l => l.foldl (fun x y => x + y + 1) 0) (fun x y => x + 2 * y + 1)
      0 [1, 2] [] 7 4 = some false ∧
    verify (fun l => l.foldl (fun x y => x + y + 1) 0) (fun x y => x + 2 * y + 1)
      5 [9] [] 0 1 = some (decide ((5 : Nat) = [9].foldl (fun x y => x + y + 1) 0)) :=
  ⟨(C5_verify (fun l => l.foldl (fun x y => x + y + 1) 0) (fun x y => x + 2 * y + 1)
      0 [1, 2] [] 7 4).1 (by decide),
    (C5_verify (fun l => l.foldl (fun x y => x + y + 1) 0) (fun x y => x + 2 * y + 1)
      5 [9] [] 0 1).2.2.1 (by decide) rfl rfl⟩

end FuelVM
